import Mathlib

/-
Shallow embedding of the staking orchestration engine in `dtao-dca.py`
(repository mcjkula/bittensor-scripts).

Modelling conventions:
* Python floats carrying TAO amounts are modelled as exact rationals `ℚ`.
* The chain is a single rational stake value per allocation, threaded
  explicitly; `get_stake` query failures (caught inside `get_stake`, which
  then returns `bt.Balance(0)`) are modelled by a boolean oracle per read.
* Exceptions raised by chain mutations (`subtensor.unstake`,
  `subtensor.add_stake`) are modelled by boolean oracles in an environment
  record; a `try`/`except` block is modelled by running the body in
  `Except` and matching on the result.
* `append_history` calls made by an operation are collected in an output
  list of `Event` values (the formatted strings of the source carry the
  same data).
* Naive `datetime` instants are modelled as microseconds since an epoch
  (`ℕ`); Python date arithmetic on naive datetimes is order-isomorphic to
  this representation.
-/

namespace DtaoDca

/-- Configuration constants of dtao-dca.py (lines 20-36). -/
def AUTO_MODE : Bool := true

def MIN_ROOT_STAKE : ℚ := 1

def MIN_STAKE_THRESHOLD : ℚ := 0.00055

def ROOT_NETUID : ℕ := 0

/-- SUBNET_CONFIGS: netuid, amount to stake, validator hotkey (lines 20-26). -/
def SUBNET_CONFIGS : List (ℕ × ℚ × String) :=
  [(1, 0.01, "validator-SS58"), (2, 0.01, "validator-SS58"),
   (3, 0.01, "validator-SS58"), (4, 0.01, "validator-SS58"),
   (5, 0.01, "validator-SS58")]

/-- Operator-facing events recorded via append_history in the source;
each constructor corresponds to one append_history call site and carries
the numeric data interpolated into the source's message string. -/
inductive Event where
  | unstakeBlocked (netuid : ℕ)
  | unstakeCancelled (netuid : ℕ)
  | emergencyRestake (deficit : ℚ) (netuid : ℕ)
  | emergencyRestakeFailed (netuid : ℕ)
  | unstaked (amount : ℚ) (netuid : ℕ)
  | unstakeFailed (netuid : ℕ)
  | stakeCancelled (netuid : ℕ)
  | staked (amount : ℚ) (netuid : ℕ)
  | stakeFailed (netuid : ℕ)
  | subnetDistributionFailure (netuid : ℕ)
  | distributed (total : ℚ) (coverage : ℚ)
  | noFundsForDistribution
  | insufficientExcess
  | recoveringMissedStake
  | scheduledStakeCompleted
  | managerError
deriving DecidableEq

/-- Mutating chain calls issued by the engine. -/
inductive ChainAction where
  | unstakeAct (netuid : ℕ) (amount : ℚ)
  | addStakeAct (netuid : ℕ) (amount : ℚ)
deriving DecidableEq

/-- Python exceptions that the embedding distinguishes. -/
inductive PyErr where
  | nameError (name : String)
  | valueError
deriving DecidableEq

/-- get_stake (lines 104-111): the query itself may fail; the failure is
caught inside get_stake and converted to a reading of 0. `ok` is the
oracle for whether the underlying RPC succeeded, `c` the true chain
stake. -/
def readStake (ok : Bool) (c : ℚ) : ℚ :=
  if ok then c else 0

/-- user_confirmation (lines 99-102): with AUTO_MODE it always approves;
otherwise it returns the operator's interactive answer. -/
def user_confirmation (answer : Bool) : Bool :=
  if AUTO_MODE then true else answer

/-- Environment of one stake_dividend call: query-success oracles for its
two get_stake reads, the interactive answer, and whether
subtensor.add_stake raises. -/
structure StakeEnv where
  q1ok : Bool
  answer : Bool
  addRaises : Bool
  q2ok : Bool
deriving DecidableEq

/-- Observable outcome of one transfer operation: the Python return value,
the chain stake afterwards, the chain mutations issued, the
append_history events recorded, and the last stake reading observed. -/
structure TOut where
  result : ℚ
  chain : ℚ
  acts : List ChainAction
  hist : List Event
  observed : ℚ
deriving DecidableEq

/-- Body of the try block of stake_dividend (lines 175-195): initial
read (logging only), confirmation gate, add_stake (may raise), settle,
re-read. An `Except.error` is an exception flying towards the handler. -/
def stakeBody (netuid : ℕ) (amount chain : ℚ) (env : StakeEnv) : Except Unit TOut :=
  let initial := readStake env.q1ok chain
  if user_confirmation env.answer then
    if env.addRaises then Except.error ()
    else
      let c2 := chain + amount
      let newStake := readStake env.q2ok c2
      Except.ok ⟨amount, c2, [ChainAction.addStakeAct netuid amount],
                 [Event.staked amount netuid], newStake⟩
  else
    Except.ok ⟨0, chain, [], [Event.stakeCancelled netuid], initial⟩

/-- stake_dividend (lines 172-201): the whole body is wrapped in
try/except; any exception is caught, recorded in history and converted
to a 0 return, so the function never raises to its caller. The finally
clause (15-unit cool-down sleep) has no observable effect in the model. -/
def stake_dividend (netuid : ℕ) (amount chain : ℚ) (env : StakeEnv) : TOut :=
  match stakeBody netuid amount chain env with
  | Except.ok r => r
  | Except.error _ => ⟨0, chain, [], [Event.stakeFailed netuid], readStake env.q1ok chain⟩

/-- Environment of one unstake_excess call: oracles for its three
get_stake reads, the interactive answer, whether subtensor.unstake
raises, the environment of the nested emergency stake_dividend call, and
external stake drift during the settle window (`drift1`) and during the
emergency-restake window (`drift2`). -/
structure UnstakeEnv where
  q1ok : Bool
  answer : Bool
  unstakeRaises : Bool
  drift1 : ℚ
  q2ok : Bool
  sd : StakeEnv
  drift2 : ℚ
  q3ok : Bool
deriving DecidableEq

/-- The max_safe_unstake expression of line 128: the current reading
minus the floor, never below zero. -/
def max_safe_unstake (chain : ℚ) (env : UnstakeEnv) : ℚ :=
  max 0 (readStake env.q1ok chain - MIN_ROOT_STAKE)

/-- The actual_unstake expression of line 129: the requested amount
clamped to the safe maximum. -/
def actual_unstake (amount chain : ℚ) (env : UnstakeEnv) : ℚ :=
  min amount (max_safe_unstake chain env)

/-- The chain stake after the withdrawal settles (between lines 148 and
150): the initial stake minus the withdrawn amount, plus any external
drift during the settle window. -/
def postWithdrawChain (amount chain : ℚ) (env : UnstakeEnv) : ℚ :=
  chain - actual_unstake amount chain env + env.drift1

/-- Body of the try block of unstake_excess (lines 125-164): read, clamp
to the floor, early return when the clamped amount is ≤ 0, confirmation,
unstake (may raise), settle, re-read; on a floor breach compute the
deficit, run the emergency stake_dividend, record its success or failure,
and re-read; finally record the unstake and return the clamped amount. -/
def unstakeBody (netuid : ℕ) (amount chain : ℚ) (env : UnstakeEnv) : Except Unit TOut :=
  if actual_unstake amount chain env ≤ 0 then
    Except.ok ⟨0, chain, [], [Event.unstakeBlocked netuid], readStake env.q1ok chain⟩
  else if user_confirmation env.answer = false then
    Except.ok ⟨0, chain, [], [Event.unstakeCancelled netuid], readStake env.q1ok chain⟩
  else if env.unstakeRaises then Except.error ()
  else
    let c1 := postWithdrawChain amount chain env
    let new1 := readStake env.q2ok c1
    if new1 < MIN_ROOT_STAKE then
      let deficit := MIN_ROOT_STAKE - new1
      let r := stake_dividend netuid deficit c1 env.sd
      let emerg := if 0 < r.result then Event.emergencyRestake deficit netuid
                   else Event.emergencyRestakeFailed netuid
      let c2 := r.chain + env.drift2
      let new2 := readStake env.q3ok c2
      Except.ok ⟨actual_unstake amount chain env, c2,
                 ChainAction.unstakeAct netuid (actual_unstake amount chain env) :: r.acts,
                 r.hist ++ [emerg, Event.unstaked (actual_unstake amount chain env) netuid], new2⟩
    else
      Except.ok ⟨actual_unstake amount chain env, c1,
                 [ChainAction.unstakeAct netuid (actual_unstake amount chain env)],
                 [Event.unstaked (actual_unstake amount chain env) netuid], new1⟩

/-- unstake_excess (lines 122-170): try/except wrapper; an exception is
caught, recorded and converted into a 0 return. -/
def unstake_excess (netuid : ℕ) (amount chain : ℚ) (env : UnstakeEnv) : TOut :=
  match unstakeBody netuid amount chain env with
  | Except.ok r => r
  | Except.error _ => ⟨0, chain, [], [Event.unstakeFailed netuid], readStake env.q1ok chain⟩

/-- append_history (lines 91-97): append the new entry at the end, then
delete the head (the oldest entry) when the length exceeds 5. -/
def append_history (log : List Event) (e : Event) : List Event :=
  let l := log ++ [e]
  if 5 < l.length then l.tail else l

/-- process_subnet (lines 203-213): calls stake_dividend and returns its
value together with the events it recorded. Its own try/except handler is
unreachable because stake_dividend never raises (it catches everything
internally), which the total Lean type of stake_dividend reflects. -/
def process_subnet (netuid : ℕ) (amount chain : ℚ) (env : StakeEnv) : ℚ × List Event :=
  let o := stake_dividend netuid amount chain env
  (o.result, o.hist)

/-- One iteration of the retry loop of the retry decorator
(`tries=3, delay=2, backoff=2, max_delay=30`, lines 122 and 172): run the
body for the current attempt; on success stop, on an exception sleep the
current delay, double it capped at 30, and try again while tries remain.
Returns the number of attempts made, the backoff sleeps performed and the
final outcome (`none` = the last exception propagates). -/
def retryLoop {α : Type} (body : ℕ → Except Unit α) :
    ℕ → ℕ → ℚ → ℕ × List ℚ × Option α
  | _, 0, _ => (0, [], none)
  | attempt, remaining + 1, delay =>
    match body attempt with
    | Except.ok a => (1, [], some a)
    | Except.error _ =>
      if remaining = 0 then (1, [], none)
      else
        let rec_ := retryLoop body (attempt + 1) remaining (min (delay * 2) 30)
        (rec_.1 + 1, delay :: rec_.2.1, rec_.2.2)

/-- The retry decorator with the parameters used in the source. -/
def retryCall {α : Type} (body : ℕ → Except Unit α) : ℕ × List ℚ × Option α :=
  retryLoop body 0 3 2

/-- The callable that the retry decorator wraps for stake_dividend: the
whole function body including its internal try/except. Because every
exception is caught inside stake_dividend and converted to a 0 return
(and the function is async, so calling it cannot raise), each attempt
always completes normally. -/
def stake_dividend_attempt (netuid : ℕ) (amount chain : ℚ) (envs : ℕ → StakeEnv)
    (i : ℕ) : Except Unit TOut :=
  Except.ok (stake_dividend netuid amount chain (envs i))

/-- The callable that the retry decorator wraps for unstake_excess;
as with stake_dividend, the internal try/except means an attempt always
completes normally. -/
def unstake_excess_attempt (netuid : ℕ) (amount chain : ℚ) (envs : ℕ → UnstakeEnv)
    (i : ℕ) : Except Unit TOut :=
  Except.ok (unstake_excess netuid amount chain (envs i))

/-- stake_dividend as actually invoked through its retry decorator. -/
def stake_dividend_retried (netuid : ℕ) (amount chain : ℚ) (envs : ℕ → StakeEnv) :
    ℕ × List ℚ × Option TOut :=
  retryCall (stake_dividend_attempt netuid amount chain envs)

/-- unstake_excess as actually invoked through its retry decorator. -/
def unstake_excess_retried (netuid : ℕ) (amount chain : ℚ) (envs : ℕ → UnstakeEnv) :
    ℕ × List ℚ × Option TOut :=
  retryCall (unstake_excess_attempt netuid amount chain envs)

/-- One iteration of the dividend fan-out loop (lines 378-386): the try
block runs process_subnet (which never raises) and then increments
successful_subnets; the except handler that would record a
subnetDistributionFailure event is therefore unreachable. The
accumulator is (successful_subnets, events recorded, values returned by
the process_subnet calls). -/
def fanOutStep (per : ℚ) (chain0 : ℕ → ℚ) (envs : ℕ → StakeEnv)
    (acc : ℕ × List Event × List ℚ) (item : ℕ × ℚ × String) : ℕ × List Event × List ℚ :=
  let r := process_subnet item.1 per (chain0 item.1) (envs item.1)
  (acc.1 + 1, acc.2.1 ++ r.2, acc.2.2 ++ [r.1])

/-- The dividend fan-out (lines 375-388): split actual_unstaked evenly,
process every configured subnet in order, and record the summary event
with the coverage percentage successful_subnets / subnet count * 100. -/
def dividendFanOut (actual_unstaked : ℚ) (cfg : List (ℕ × ℚ × String))
    (chain0 : ℕ → ℚ) (envs : ℕ → StakeEnv) : ℕ × List Event × List ℚ :=
  let per_subnet := actual_unstaked / (cfg.length : ℚ)
  let z := cfg.foldl (fanOutStep per_subnet chain0 envs) (0, [], [])
  let efficiency := (z.1 : ℚ) / (cfg.length : ℚ) * 100
  (z.1, z.2.1 ++ [Event.distributed actual_unstaked efficiency], z.2.2)

/-- The name STAKE_INTERVAL is referenced at lines 399 and 401 of the
source but is never assigned anywhere in the module and is not imported,
so evaluating it raises NameError at runtime. -/
def STAKE_INTERVAL : Except PyErr ℕ := Except.error (PyErr.nameError "STAKE_INTERVAL")

/-- The catch-up computation of lines 399-401 as it would behave if
STAKE_INTERVAL evaluated to the interval `iv`: starting from
original_next_staking + iv, keep adding iv while the value is still
strictly before now. -/
def catchUp (start iv now : ℕ) : ℕ :=
  if now ≤ start then start else start + iv * ((now - start + iv - 1) / iv)

/-- Scheduler state of staking_manager: the in-memory next_staking and
original_next_staking instants and the persisted schedule-file instant
(all in microseconds). -/
structure SchedState where
  next_staking : ℕ
  original_next_staking : ℕ
  scheduleFile : Option ℕ
deriving DecidableEq

/-- The scheduled staking block of one manager tick (lines 395-406).
When the cycle is due and the balance covers total_required, every
configured subnet is processed first (lines 396-397); then line 399
evaluates STAKE_INTERVAL, which raises NameError, so write_schedule is
never reached and both the in-memory next_staking and the schedule file
stay unchanged; the exception propagates to the loop handler at line
410. Output: deposits issued as (netuid, amount) pairs, the scheduler
state afterwards, the exception that escaped (if any), and the events
recorded. -/
def scheduledTick (now : ℕ) (st : SchedState) (balance total_required : ℚ)
    (cfg : List (ℕ × ℚ × String)) (chain0 : ℕ → ℚ) (envs : ℕ → StakeEnv) :
    List (ℕ × ℚ) × SchedState × Option PyErr × List Event :=
  if st.next_staking ≤ now ∧ total_required ≤ balance then
    let deposits := cfg.map (fun item => (item.1, item.2.1))
    let events := cfg.foldl
      (fun acc item => acc ++ (process_subnet item.1 item.2.1 (chain0 item.1) (envs item.1)).2) []
    match STAKE_INTERVAL with
    | Except.error e => (deposits, st, some e, events)
    | Except.ok iv =>
      let new_next := catchUp (st.original_next_staking + iv) iv now
      (deposits, ⟨new_next, new_next, some new_next⟩, none,
       events ++ [Event.scheduledStakeCompleted])
  else ([], st, none, [])

/-- Microseconds in one hour. -/
def usPerHour : ℕ := 3600000000

/-- Microseconds in one day. -/
def usPerDay : ℕ := 86400000000

/-- next_staking_time (lines 78-89) on instants in microseconds: take the
hour of the reference time, round it up to the next multiple of 6, and
return that boundary on the same day, or midnight of the next day when
the rounded hour reaches 24. -/
def next_staking_time (t : ℕ) : ℕ :=
  let current_hour := t % usPerDay / usPerHour
  let next_hour := (current_hour / 6 + 1) * 6
  if 24 ≤ next_hour then (t / usPerDay + 1) * usPerDay
  else t / usPerDay * usPerDay + next_hour * usPerHour

/-- A naive Python datetime: the field ranges are those enforced by the
datetime constructor (year 1-9999, month 1-12, day 1-31, hour < 24,
minute < 60, second < 60, microsecond < 1000000). -/
structure PyDateTime where
  year : ℕ
  month : ℕ
  day : ℕ
  hour : ℕ
  minute : ℕ
  second : ℕ
  microsecond : ℕ
  year_lb : 1 ≤ year
  year_ub : year ≤ 9999
  month_lb : 1 ≤ month
  month_ub : month ≤ 12
  day_lb : 1 ≤ day
  day_ub : day ≤ 31
  hour_ub : hour < 24
  minute_ub : minute < 60
  second_ub : second < 60
  micro_ub : microsecond < 1000000

/-- The ASCII digit character for a value below 10. -/
def digitChar (n : ℕ) : Char := Char.ofNat (48 + n)

/-- The numeric value of an ASCII digit character. -/
def charVal (c : Char) : ℕ := c.toNat - 48

/-- datetime.isoformat of a naive datetime as a character list:
YYYY-MM-DDTHH:MM:SS, with a .ffffff suffix exactly when the microsecond
field is nonzero. -/
def toIsoChars (d : PyDateTime) : List Char :=
  digitChar (d.year / 1000) :: digitChar (d.year / 100 % 10) ::
  digitChar (d.year / 10 % 10) :: digitChar (d.year % 10) ::
  '-' :: digitChar (d.month / 10) :: digitChar (d.month % 10) ::
  '-' :: digitChar (d.day / 10) :: digitChar (d.day % 10) ::
  'T' :: digitChar (d.hour / 10) :: digitChar (d.hour % 10) ::
  ':' :: digitChar (d.minute / 10) :: digitChar (d.minute % 10) ::
  ':' :: digitChar (d.second / 10) :: digitChar (d.second % 10) ::
  (if d.microsecond = 0 then [] else
    '.' :: digitChar (d.microsecond / 100000) :: digitChar (d.microsecond / 10000 % 10) ::
    digitChar (d.microsecond / 1000 % 10) :: digitChar (d.microsecond / 100 % 10) ::
    digitChar (d.microsecond / 10 % 10) :: digitChar (d.microsecond % 10) :: [])

/-- datetime.isoformat as a string. -/
def toIso (d : PyDateTime) : String := String.mk (toIsoChars d)

/-- The optional fractional-seconds suffix accepted by
datetime.fromisoformat: empty, or a dot followed by six digits. -/
def fracVal (rest : List Char) : Option ℕ :=
  match rest with
  | [] => some 0
  | '.' :: u1 :: u2 :: u3 :: u4 :: u5 :: u6 :: [] =>
    if (u1.isDigit && u2.isDigit && u3.isDigit && u4.isDigit && u5.isDigit && u6.isDigit) then
      some (100000 * charVal u1 + 10000 * charVal u2 + 1000 * charVal u3 +
            100 * charVal u4 + 10 * charVal u5 + charVal u6)
    else none
  | _ => none

/-- datetime.fromisoformat on the character list of a
YYYY-MM-DD[T]HH:MM:SS[.ffffff] string: parse the fixed-position fields,
validate digits and the constructor range checks, and build the
datetime; `none` models the ValueError raised on invalid input. -/
def fromIsoChars (l : List Char) : Option PyDateTime :=
  match l with
  | y1 :: y2 :: y3 :: y4 :: '-' :: m1 :: m2 :: '-' :: d1 :: d2 ::
    'T' :: h1 :: h2 :: ':' :: n1 :: n2 :: ':' :: s1 :: s2 :: rest =>
    if (y1.isDigit && y2.isDigit && y3.isDigit && y4.isDigit && m1.isDigit && m2.isDigit &&
        d1.isDigit && d2.isDigit && h1.isDigit && h2.isDigit && n1.isDigit && n2.isDigit &&
        s1.isDigit && s2.isDigit) then
      match fracVal rest with
      | none => none
      | some us =>
        let y := 1000 * charVal y1 + 100 * charVal y2 + 10 * charVal y3 + charVal y4
        let mo := 10 * charVal m1 + charVal m2
        let da := 10 * charVal d1 + charVal d2
        let ho := 10 * charVal h1 + charVal h2
        let mi := 10 * charVal n1 + charVal n2
        let se := 10 * charVal s1 + charVal s2
        if h : 1 ≤ y ∧ y ≤ 9999 ∧ 1 ≤ mo ∧ mo ≤ 12 ∧ 1 ≤ da ∧ da ≤ 31 ∧
               ho < 24 ∧ mi < 60 ∧ se < 60 ∧ us < 1000000 then
          some ⟨y, mo, da, ho, mi, se, us, h.1, h.2.1, h.2.2.1, h.2.2.2.1, h.2.2.2.2.1,
                h.2.2.2.2.2.1, h.2.2.2.2.2.2.1, h.2.2.2.2.2.2.2.1, h.2.2.2.2.2.2.2.2.1,
                h.2.2.2.2.2.2.2.2.2⟩
        else none
    else none
  | _ => none

/-- write_schedule (lines 71-76): the value stored under the
next_staking key of the schedule file is the ISO serialization of the
given datetime (json.dump round-trips the string itself unchanged). -/
def write_schedule (next_staking : PyDateTime) : String := toIso next_staking

/-- read_schedule (lines 65-69) on an existing schedule file whose
next_staking key holds the string `stored`: an empty (falsy) string maps
to None, otherwise datetime.fromisoformat parses it, raising ValueError
on invalid input. -/
def read_schedule (stored : String) : Except PyErr (Option PyDateTime) :=
  if stored = "" then Except.ok none
  else
    match fromIsoChars stored.data with
    | some d => Except.ok (some d)
    | none => Except.error PyErr.valueError

/- ------------------------------------------------------------------ -/
/- Helper lemmas -/
/- ------------------------------------------------------------------ -/

theorem stake_dividend_of_raise (netuid : ℕ) (amount chain : ℚ) (env : StakeEnv)
    (h : env.addRaises = true) :
    stake_dividend netuid amount chain env =
      ⟨0, chain, [], [Event.stakeFailed netuid], readStake env.q1ok chain⟩ := by
  unfold stake_dividend stakeBody
  simp [user_confirmation, AUTO_MODE, h]

theorem stake_dividend_of_ok (netuid : ℕ) (amount chain : ℚ) (env : StakeEnv)
    (h : env.addRaises = false) :
    stake_dividend netuid amount chain env =
      ⟨amount, chain + amount, [ChainAction.addStakeAct netuid amount],
       [Event.staked amount netuid], readStake env.q2ok (chain + amount)⟩ := by
  unfold stake_dividend stakeBody
  simp [user_confirmation, AUTO_MODE, h]

theorem unstake_excess_of_ok {netuid : ℕ} {amount chain : ℚ} {env : UnstakeEnv} {r : TOut}
    (h : unstakeBody netuid amount chain env = Except.ok r) :
    unstake_excess netuid amount chain env = r := by
  unfold unstake_excess
  rw [h]

theorem unstake_excess_of_error {netuid : ℕ} {amount chain : ℚ} {env : UnstakeEnv}
    (h : unstakeBody netuid amount chain env = Except.error ()) :
    unstake_excess netuid amount chain env =
      ⟨0, chain, [], [Event.unstakeFailed netuid], readStake env.q1ok chain⟩ := by
  unfold unstake_excess
  rw [h]

theorem unstakeBody_blocked (netuid : ℕ) (amount chain : ℚ) (env : UnstakeEnv)
    (h : actual_unstake amount chain env ≤ 0) :
    unstakeBody netuid amount chain env =
      Except.ok ⟨0, chain, [], [Event.unstakeBlocked netuid], readStake env.q1ok chain⟩ := by
  unfold unstakeBody
  rw [if_pos h]

theorem unstakeBody_raise (netuid : ℕ) (amount chain : ℚ) (env : UnstakeEnv)
    (hpos : 0 < actual_unstake amount chain env) (hr : env.unstakeRaises = true) :
    unstakeBody netuid amount chain env = Except.error () := by
  unfold unstakeBody
  rw [if_neg (not_le.mpr hpos)]
  simp [user_confirmation, AUTO_MODE, hr]

theorem unstakeBody_no_breach (netuid : ℕ) (amount chain : ℚ) (env : UnstakeEnv)
    (hpos : 0 < actual_unstake amount chain env) (hr : env.unstakeRaises = false)
    (hnb : ¬ readStake env.q2ok (postWithdrawChain amount chain env) < MIN_ROOT_STAKE) :
    unstakeBody netuid amount chain env =
      Except.ok ⟨actual_unstake amount chain env, postWithdrawChain amount chain env,
                 [ChainAction.unstakeAct netuid (actual_unstake amount chain env)],
                 [Event.unstaked (actual_unstake amount chain env) netuid],
                 readStake env.q2ok (postWithdrawChain amount chain env)⟩ := by
  unfold unstakeBody
  rw [if_neg (not_le.mpr hpos)]
  simp only [user_confirmation, AUTO_MODE, if_true, Bool.true_eq_false, if_false, hr,
    Bool.false_eq_true]
  rw [if_neg hnb]

theorem unstakeBody_breach (netuid : ℕ) (amount chain : ℚ) (env : UnstakeEnv)
    (hpos : 0 < actual_unstake amount chain env) (hr : env.unstakeRaises = false)
    (hb : readStake env.q2ok (postWithdrawChain amount chain env) < MIN_ROOT_STAKE) :
    unstakeBody netuid amount chain env =
      (let c1 := postWithdrawChain amount chain env
       let deficit := MIN_ROOT_STAKE - readStake env.q2ok c1
       let r := stake_dividend netuid deficit c1 env.sd
       let emerg := if 0 < r.result then Event.emergencyRestake deficit netuid
                    else Event.emergencyRestakeFailed netuid
       Except.ok ⟨actual_unstake amount chain env, r.chain + env.drift2,
                  ChainAction.unstakeAct netuid (actual_unstake amount chain env) :: r.acts,
                  r.hist ++ [emerg, Event.unstaked (actual_unstake amount chain env) netuid],
                  readStake env.q3ok (r.chain + env.drift2)⟩) := by
  unfold unstakeBody
  rw [if_neg (not_le.mpr hpos)]
  simp only [user_confirmation, AUTO_MODE, if_true, Bool.true_eq_false, if_false, hr,
    Bool.false_eq_true]
  rw [if_pos hb]

/- ------------------------------------------------------------------ -/
/- Claim theorems -/
/- ------------------------------------------------------------------ -/

/-- C1: for every requested amount, observed stake and environment,
unstake_excess computes the withdrawn amount as
min(requested, max(0, observed − MIN_ROOT_STAKE)); when that clamp is
≤ 0 it returns 0 and issues no chain mutation, and its return value is
≥ 0 on every return path. -/
theorem unstake_excess_clamps (netuid : ℕ) (amount chain : ℚ) (env : UnstakeEnv) :
    0 ≤ (unstake_excess netuid amount chain env).result
    ∧ (min amount (max 0 (readStake env.q1ok chain - MIN_ROOT_STAKE)) ≤ 0 →
        (unstake_excess netuid amount chain env).result = 0
        ∧ (unstake_excess netuid amount chain env).acts = [])
    ∧ (0 < min amount (max 0 (readStake env.q1ok chain - MIN_ROOT_STAKE)) →
        env.unstakeRaises = false →
        (unstake_excess netuid amount chain env).result
            = min amount (max 0 (readStake env.q1ok chain - MIN_ROOT_STAKE))
        ∧ ChainAction.unstakeAct netuid
            (min amount (max 0 (readStake env.q1ok chain - MIN_ROOT_STAKE)))
            ∈ (unstake_excess netuid amount chain env).acts) := by
  have ha : actual_unstake amount chain env
      = min amount (max 0 (readStake env.q1ok chain - MIN_ROOT_STAKE)) := rfl
  by_cases hle : actual_unstake amount chain env ≤ 0
  · rw [unstake_excess_of_ok (unstakeBody_blocked netuid amount chain env hle)]
    refine ⟨le_refl 0, fun _ => ⟨rfl, rfl⟩, fun hpos _ => absurd (ha ▸ hle) (not_le.mpr hpos)⟩
  · have hpos : 0 < actual_unstake amount chain env := not_le.mp hle
    cases hr : env.unstakeRaises with
    | true =>
      rw [unstake_excess_of_error (unstakeBody_raise netuid amount chain env hpos hr)]
      exact ⟨le_refl 0, fun h => absurd (ha ▸ h) hle, fun _ hr0 => by simp at hr0⟩
    | false =>
      by_cases hb : readStake env.q2ok (postWithdrawChain amount chain env) < MIN_ROOT_STAKE
      · rw [unstake_excess_of_ok (unstakeBody_breach netuid amount chain env hpos hr hb)]
        refine ⟨le_of_lt (ha ▸ hpos), fun h => absurd (ha ▸ h) hle, fun _ _ => ⟨rfl, ?_⟩⟩
        exact List.mem_cons_self _ _
      · rw [unstake_excess_of_ok (unstakeBody_no_breach netuid amount chain env hpos hr hb)]
        refine ⟨le_of_lt (ha ▸ hpos), fun h => absurd (ha ▸ h) hle, fun _ _ => ⟨rfl, ?_⟩⟩
        exact List.mem_singleton.mpr rfl

/-- C1 witness: concrete run with requested amount 2 against an observed
stake of 3 and floor 1: the clamp is 2, the withdrawal is issued for 2. -/
theorem unstake_excess_clamps_witness :
    0 ≤ (unstake_excess 0 2 3
          ⟨true, true, false, 0, true, ⟨true, true, false, true⟩, 0, true⟩).result
    ∧ (min 2 (max 0 (readStake true 3 - MIN_ROOT_STAKE)) ≤ 0 →
        (unstake_excess 0 2 3
          ⟨true, true, false, 0, true, ⟨true, true, false, true⟩, 0, true⟩).result = 0
        ∧ (unstake_excess 0 2 3
          ⟨true, true, false, 0, true, ⟨true, true, false, true⟩, 0, true⟩).acts = [])
    ∧ (0 < min 2 (max 0 (readStake true 3 - MIN_ROOT_STAKE)) →
        (⟨true, true, false, 0, true, ⟨true, true, false, true⟩, 0, true⟩ : UnstakeEnv).unstakeRaises
          = false →
        (unstake_excess 0 2 3
          ⟨true, true, false, 0, true, ⟨true, true, false, true⟩, 0, true⟩).result
            = min 2 (max 0 (readStake true 3 - MIN_ROOT_STAKE))
        ∧ ChainAction.unstakeAct 0 (min 2 (max 0 (readStake true 3 - MIN_ROOT_STAKE)))
            ∈ (unstake_excess 0 2 3
                ⟨true, true, false, 0, true, ⟨true, true, false, true⟩, 0, true⟩).acts) :=
  unstake_excess_clamps 0 2 3 ⟨true, true, false, 0, true, ⟨true, true, false, true⟩, 0, true⟩

/-- C2: when an unstake_excess call actually performs a withdrawal and
the environment is benign around the emergency-restake window (both
post-withdrawal stake queries succeed and no external stake change
happens between the restake and the final read), then: if the
post-withdrawal stake is below MIN_ROOT_STAKE, a deposit of exactly the
deficit is issued via stake_dividend and recorded, its failure is
recorded as the distinct emergencyRestakeFailed event, and on completion
either the last observed root stake is ≥ MIN_ROOT_STAKE or that failure
event is in the history. -/
theorem unstake_excess_floor_restoration (netuid : ℕ) (amount chain : ℚ) (env : UnstakeEnv)
    (hq2 : env.q2ok = true) (hq3 : env.q3ok = true) (hdrift : env.drift2 = 0)
    (hraise : env.unstakeRaises = false)
    (hpos : 0 < actual_unstake amount chain env) :
    (postWithdrawChain amount chain env < MIN_ROOT_STAKE →
      (env.sd.addRaises = false →
        ChainAction.addStakeAct netuid (MIN_ROOT_STAKE - postWithdrawChain amount chain env)
          ∈ (unstake_excess netuid amount chain env).acts
        ∧ Event.emergencyRestake (MIN_ROOT_STAKE - postWithdrawChain amount chain env) netuid
          ∈ (unstake_excess netuid amount chain env).hist)
      ∧ (env.sd.addRaises = true →
          Event.emergencyRestakeFailed netuid ∈ (unstake_excess netuid amount chain env).hist))
    ∧ (MIN_ROOT_STAKE ≤ (unstake_excess netuid amount chain env).observed
       ∨ Event.emergencyRestakeFailed netuid ∈ (unstake_excess netuid amount chain env).hist) := by
  have hread : readStake env.q2ok (postWithdrawChain amount chain env)
      = postWithdrawChain amount chain env := by simp [readStake, hq2]
  by_cases hb : postWithdrawChain amount chain env < MIN_ROOT_STAKE
  · have hbr : readStake env.q2ok (postWithdrawChain amount chain env) < MIN_ROOT_STAKE := by
      rw [hread]; exact hb
    rw [unstake_excess_of_ok (unstakeBody_breach netuid amount chain env hpos hraise hbr)]
    rw [hread]
    cases hsd : env.sd.addRaises with
    | true =>
      rw [stake_dividend_of_raise netuid _ _ env.sd hsd]
      refine ⟨fun _ => ⟨fun hsd0 => (by simp at hsd0), fun _ => ?_⟩, Or.inr ?_⟩
      · simp
      · simp
    | false =>
      rw [stake_dividend_of_ok netuid _ _ env.sd hsd]
      have hdef : 0 < MIN_ROOT_STAKE - postWithdrawChain amount chain env := by linarith
      rw [if_pos hdef]
      refine ⟨fun _ => ⟨fun _ => ⟨?_, ?_⟩, fun hsd1 => (by simp at hsd1)⟩,
              Or.inl ?_⟩
      · simp
      · simp
      · have : postWithdrawChain amount chain env
            + (MIN_ROOT_STAKE - postWithdrawChain amount chain env) + env.drift2
            = MIN_ROOT_STAKE := by rw [hdrift]; ring
        simp only [this, readStake, hq3, if_pos]
        simp
  · have hnb : ¬ readStake env.q2ok (postWithdrawChain amount chain env) < MIN_ROOT_STAKE := by
      rw [hread]; exact hb
    rw [unstake_excess_of_ok (unstakeBody_no_breach netuid amount chain env hpos hraise hnb)]
    exact ⟨fun hbr => absurd hbr hb, Or.inl (by rw [hread]; exact not_lt.mp hb)⟩

/-- C2 witness: requested 2 against stake 3 with drift −1/2 during the
settle window: the post-withdrawal stake is 1/2 < 1, the deficit 1/2 is
redeposited, and the final observed stake is back at the floor. -/
theorem unstake_excess_floor_restoration_witness :
    (postWithdrawChain 2 3 ⟨true, true, false, -(1/2), true, ⟨true, true, false, true⟩, 0, true⟩
        < MIN_ROOT_STAKE →
      ((⟨true, true, false, true⟩ : StakeEnv).addRaises = false →
        ChainAction.addStakeAct 0 (MIN_ROOT_STAKE
            - postWithdrawChain 2 3
                ⟨true, true, false, -(1/2), true, ⟨true, true, false, true⟩, 0, true⟩)
          ∈ (unstake_excess 0 2 3
              ⟨true, true, false, -(1/2), true, ⟨true, true, false, true⟩, 0, true⟩).acts
        ∧ Event.emergencyRestake (MIN_ROOT_STAKE
            - postWithdrawChain 2 3
                ⟨true, true, false, -(1/2), true, ⟨true, true, false, true⟩, 0, true⟩) 0
          ∈ (unstake_excess 0 2 3
              ⟨true, true, false, -(1/2), true, ⟨true, true, false, true⟩, 0, true⟩).hist)
      ∧ ((⟨true, true, false, true⟩ : StakeEnv).addRaises = true →
          Event.emergencyRestakeFailed 0
            ∈ (unstake_excess 0 2 3
                ⟨true, true, false, -(1/2), true, ⟨true, true, false, true⟩, 0, true⟩).hist))
    ∧ (MIN_ROOT_STAKE ≤ (unstake_excess 0 2 3
          ⟨true, true, false, -(1/2), true, ⟨true, true, false, true⟩, 0, true⟩).observed
       ∨ Event.emergencyRestakeFailed 0
          ∈ (unstake_excess 0 2 3
              ⟨true, true, false, -(1/2), true, ⟨true, true, false, true⟩, 0, true⟩).hist) :=
  unstake_excess_floor_restoration 0 2 3
    ⟨true, true, false, -(1/2), true, ⟨true, true, false, true⟩, 0, true⟩
    rfl rfl rfl rfl
    (by norm_num [actual_unstake, max_safe_unstake, readStake, MIN_ROOT_STAKE, min_def, max_def])

theorem append_history_foldl (msgs : List Event) :
    ∀ acc : List Event, acc.length ≤ 5 →
      msgs.foldl append_history acc = (acc ++ msgs).drop ((acc ++ msgs).length - 5) := by
  induction msgs with
  | nil =>
    intro acc h
    have : acc.length - 5 = 0 := by omega
    simp [this]
  | cons m rest ih =>
    intro acc h
    rw [List.foldl_cons]
    by_cases h5 : (acc ++ [m]).length ≤ 5
    · have hnot : ¬ 5 < (acc ++ [m]).length := not_lt.mpr h5
      have happ : append_history acc m = acc ++ [m] := by
        unfold append_history
        rw [if_neg hnot]
      rw [happ, ih (acc ++ [m]) h5, List.append_assoc]
      simp
    · have hlen : acc.length = 5 := by simp at h5 ⊢; omega
      have hlt : 5 < (acc ++ [m]).length := by simp [hlen]
      have happ : append_history acc m = (acc ++ [m]).drop 1 := by
        unfold append_history
        rw [if_pos hlt, ← List.drop_one]
      rw [happ, ih ((acc ++ [m]).drop 1) (by simp [hlen])]
      rw [← List.drop_append_of_le_length (by simp)]
      rw [List.drop_drop, List.append_assoc]
      simp [hlen]
      rw [Nat.add_comm]

/-- C6: for every sequence of appends to the history ledger starting
from the empty ledger, the resulting ledger is exactly the most recent
(at most 5) entries in order — so the length never exceeds the bound of
5 and the oldest entry is evicted first. -/
theorem history_ledger_bounded_fifo (msgs : List Event) :
    msgs.foldl append_history [] = msgs.drop (msgs.length - 5)
    ∧ (msgs.foldl append_history []).length ≤ 5 := by
  have h := append_history_foldl msgs [] (by simp)
  simp only [List.nil_append] at h
  refine ⟨h, ?_⟩
  rw [h, List.length_drop]
  omega

/-- C9: next_staking_time always returns an instant on a 6-hour UTC
boundary (time of day 00:00, 06:00, 12:00 or 18:00), strictly after the
reference instant and at most 6 hours after it. -/
theorem next_staking_time_boundary (t : ℕ) :
    (next_staking_time t % usPerDay = 0
      ∨ next_staking_time t % usPerDay = 6 * usPerHour
      ∨ next_staking_time t % usPerDay = 12 * usPerHour
      ∨ next_staking_time t % usPerDay = 18 * usPerHour)
    ∧ t < next_staking_time t
    ∧ next_staking_time t ≤ t + 6 * usPerHour := by
  unfold next_staking_time usPerDay usPerHour
  dsimp only
  split <;> omega

/-- C8: when the scheduled cycle is due but the balance does not cover
the configured total, the tick issues no subnet deposit, raises nothing,
records nothing and leaves the scheduler state — both the in-memory
next_staking and the persisted schedule file — unchanged. -/
theorem scheduled_cycle_underfunded_frame (now : ℕ) (st : SchedState)
    (balance total_required : ℚ) (cfg : List (ℕ × ℚ × String))
    (chain0 : ℕ → ℚ) (envs : ℕ → StakeEnv)
    (hdue : st.next_staking ≤ now) (hfund : balance < total_required) :
    scheduledTick now st balance total_required cfg chain0 envs = ([], st, none, []) := by
  have := hdue
  unfold scheduledTick
  rw [if_neg (fun hc => absurd hc.2 (not_le.mpr hfund))]

/-- C8 witness: the spec scenario — balance 0.03 against a required
total of 0.05 at a due tick leaves everything untouched. -/
theorem scheduled_cycle_underfunded_frame_witness :
    scheduledTick 10 ⟨0, 0, some 0⟩ 0.03 0.05 SUBNET_CONFIGS (fun _ => 0)
        (fun _ => ⟨true, true, false, true⟩)
      = ([], ⟨0, 0, some 0⟩, none, []) :=
  scheduled_cycle_underfunded_frame 10 ⟨0, 0, some 0⟩ 0.03 0.05 SUBNET_CONFIGS
    (fun _ => 0) (fun _ => ⟨true, true, false, true⟩) (Nat.zero_le 10) (by norm_num)

/-- C3: evidence for the scheduling code bug — at a due and funded tick
the deposits of lines 396-397 are all issued, and then line 399
evaluates the never-defined name STAKE_INTERVAL, so the tick raises
NameError instead of computing, persisting and installing the next
6-hour boundary: the scheduler state is left unchanged. -/
theorem scheduled_cycle_raises_nameerror :
    scheduledTick 1000 ⟨0, 0, some 0⟩ 1 0.05 SUBNET_CONFIGS (fun _ => 2)
        (fun _ => ⟨true, true, false, true⟩)
      = ([(1, 0.01), (2, 0.01), (3, 0.01), (4, 0.01), (5, 0.01)],
         ⟨0, 0, some 0⟩, some (PyErr.nameError "STAKE_INTERVAL"),
         [Event.staked 0.01 1, Event.staked 0.01 2, Event.staked 0.01 3,
          Event.staked 0.01 4, Event.staked 0.01 5]) := by
  unfold scheduledTick
  rw [if_pos ⟨Nat.zero_le 1000, by norm_num⟩]
  have hsd : ∀ (n : ℕ) (a c : ℚ), stake_dividend n a c ⟨true, true, false, true⟩ =
      ⟨a, c + a, [ChainAction.addStakeAct n a], [Event.staked a n], readStake true (c + a)⟩ :=
    fun n a c => stake_dividend_of_ok n a c ⟨true, true, false, true⟩ rfl
  simp [STAKE_INTERVAL, SUBNET_CONFIGS, process_subnet, hsd]

theorem fanOutStep_foldl (per : ℚ) (chain0 : ℕ → ℚ) (envs : ℕ → StakeEnv)
    (cfg : List (ℕ × ℚ × String)) :
    ∀ acc : ℕ × List Event × List ℚ,
      cfg.foldl (fanOutStep per chain0 envs) acc
        = (acc.1 + cfg.length,
           acc.2.1 ++ (cfg.map (fun item =>
             (process_subnet item.1 per (chain0 item.1) (envs item.1)).2)).flatten,
           acc.2.2 ++ cfg.map (fun item =>
             (process_subnet item.1 per (chain0 item.1) (envs item.1)).1)) := by
  induction cfg with
  | nil => intro acc; simp
  | cons it rest ih =>
    intro acc
    rw [List.foldl_cons, ih]
    simp [fanOutStep, List.append_assoc]
    omega

/-- C4 counterexample: a concrete stake_dividend call whose attempt
fails (add_stake raises, the result is 0 and the failure event is
recorded), yet the retry-wrapped call performs exactly one attempt and
sleeps through no backoff delay — the failure is terminal immediately,
contradicting the claimed 3-attempt backoff retry on any failure. -/
theorem stake_retry_counterexample :
    stake_dividend_retried 1 2 0 (fun _ => ⟨true, true, true, true⟩)
      = (1, [], some ⟨0, 0, [], [Event.stakeFailed 1], 0⟩) := rfl

/-- C4 amended: both transfer operations are wrapped in a retry
decorator configured for up to 3 attempts with backoff 2 doubling capped
at 30, but every failure is caught inside the operation and converted to
a 0 return, so no exception ever reaches the wrapper: every call makes
exactly one attempt, with no backoff sleeps, and the single attempt's
outcome is the final one. -/
theorem transfer_retry_single_attempt (netuidS netuidU : ℕ)
    (amountS chainS amountU chainU : ℚ)
    (envsS : ℕ → StakeEnv) (envsU : ℕ → UnstakeEnv) :
    stake_dividend_retried netuidS amountS chainS envsS
      = (1, [], some (stake_dividend netuidS amountS chainS (envsS 0)))
    ∧ unstake_excess_retried netuidU amountU chainU envsU
      = (1, [], some (unstake_excess netuidU amountU chainU (envsU 0))) := ⟨rfl, rfl⟩

/-- C5 counterexample: in a fan-out over the five configured subnets
where subnet 2's deposit fails (result 0, failure recorded), the summary
event still reports a coverage of 100 percent — not the
4 of 5 = 80 percent that counting the failed deposit against the ratio
would give. -/
theorem fanout_coverage_counterexample :
    (dividendFanOut 5 SUBNET_CONFIGS (fun _ => 0)
        (fun n => if n = 2 then ⟨true, true, true, true⟩ else ⟨true, true, false, true⟩)).2.2
      = [1, 0, 1, 1, 1]
    ∧ (dividendFanOut 5 SUBNET_CONFIGS (fun _ => 0)
        (fun n => if n = 2 then ⟨true, true, true, true⟩ else ⟨true, true, false, true⟩)).2.1
      = [Event.staked 1 1, Event.stakeFailed 2, Event.staked 1 3, Event.staked 1 4,
         Event.staked 1 5, Event.distributed 5 100]
    ∧ (100 : ℚ) ≠ 4 / 5 * 100 := by
  have hok : ∀ (n : ℕ) (a c : ℚ), stake_dividend n a c ⟨true, true, false, true⟩ =
      ⟨a, c + a, [ChainAction.addStakeAct n a], [Event.staked a n], readStake true (c + a)⟩ :=
    fun n a c => stake_dividend_of_ok n a c ⟨true, true, false, true⟩ rfl
  have hbad : ∀ (n : ℕ) (a c : ℚ), stake_dividend n a c ⟨true, true, true, true⟩ =
      ⟨0, c, [], [Event.stakeFailed n], readStake true c⟩ :=
    fun n a c => stake_dividend_of_raise n a c ⟨true, true, true, true⟩ rfl
  refine ⟨?_, ?_, by norm_num⟩ <;>
  · unfold dividendFanOut
    dsimp only
    rw [fanOutStep_foldl]
    simp [SUBNET_CONFIGS, process_subnet, hok, hbad]
    try norm_num

/-- C5 amended: a failed subnet deposit does not abort the fan-out — all
configured subnets are processed and every per-subnet return value is
collected — but the success counter counts every process_subnet call
that returned (deposit failures return 0 instead of raising), so the
summary event always reports 100 percent coverage regardless of how many
deposits actually failed. -/
theorem fanout_isolates_failures_but_reports_full_coverage
    (actual : ℚ) (cfg : List (ℕ × ℚ × String)) (chain0 : ℕ → ℚ) (envs : ℕ → StakeEnv)
    (hne : cfg ≠ []) :
    (dividendFanOut actual cfg chain0 envs).2.2.length = cfg.length
    ∧ (dividendFanOut actual cfg chain0 envs).1 = cfg.length
    ∧ Event.distributed actual 100 ∈ (dividendFanOut actual cfg chain0 envs).2.1 := by
  have hlen : ((cfg.length : ℚ)) ≠ 0 := by
    simpa using fun h => hne (List.length_eq_zero.mp h)
  have heff : ((0 + cfg.length : ℕ) : ℚ) / (cfg.length : ℚ) * 100 = 100 := by
    rw [Nat.zero_add, div_self hlen, one_mul]
  unfold dividendFanOut
  dsimp only
  rw [fanOutStep_foldl]
  refine ⟨by simp, by simp, ?_⟩
  rw [heff]
  simp

/-- C5 amended witness: five subnets, one failing, all processed and the
summary reports 100 percent. -/
theorem fanout_isolates_failures_witness :
    (dividendFanOut 5 SUBNET_CONFIGS (fun _ => 1)
        (fun n => if n = 4 then ⟨true, true, true, true⟩ else ⟨true, true, false, true⟩)).2.2.length
      = SUBNET_CONFIGS.length
    ∧ (dividendFanOut 5 SUBNET_CONFIGS (fun _ => 1)
        (fun n => if n = 4 then ⟨true, true, true, true⟩ else ⟨true, true, false, true⟩)).1
      = SUBNET_CONFIGS.length
    ∧ Event.distributed 5 100 ∈ (dividendFanOut 5 SUBNET_CONFIGS (fun _ => 1)
        (fun n => if n = 4 then ⟨true, true, true, true⟩ else ⟨true, true, false, true⟩)).2.1 :=
  fanout_isolates_failures_but_reports_full_coverage 5 SUBNET_CONFIGS (fun _ => 1)
    (fun n => if n = 4 then ⟨true, true, true, true⟩ else ⟨true, true, false, true⟩)
    (by simp [SUBNET_CONFIGS])

/-- C7: a failing deposit is caught inside stake_dividend: the body does
raise, but the call returns 0, records the failure event in the history
ledger, issues no chain mutation, hands its caller process_subnet a
plain (0, events) value rather than an exception, and a fan-out in which
every deposit fails still processes every configured subnet. -/
theorem stake_dividend_failure_contained (netuid : ℕ) (amount chain : ℚ) (env : StakeEnv)
    (cfg : List (ℕ × ℚ × String)) (chain0 : ℕ → ℚ)
    (hfail : env.addRaises = true) :
    stakeBody netuid amount chain env = Except.error ()
    ∧ (stake_dividend netuid amount chain env).result = 0
    ∧ (stake_dividend netuid amount chain env).hist = [Event.stakeFailed netuid]
    ∧ (stake_dividend netuid amount chain env).acts = []
    ∧ process_subnet netuid amount chain env = (0, [Event.stakeFailed netuid])
    ∧ ((dividendFanOut amount cfg chain0 (fun _ => env)).2.2).length = cfg.length := by
  have hb : stakeBody netuid amount chain env = Except.error () := by
    unfold stakeBody
    simp [user_confirmation, AUTO_MODE, hfail]
  have hsd := stake_dividend_of_raise netuid amount chain env hfail
  refine ⟨hb, by rw [hsd], by rw [hsd], by rw [hsd], ?_, ?_⟩
  · unfold process_subnet
    rw [hsd]
  · unfold dividendFanOut
    dsimp only
    rw [fanOutStep_foldl]
    simp

/-- C7 witness: a concrete failing deposit on subnet 1 is contained and
the all-failing fan-out over the configured subnets still visits all
five. -/
theorem stake_dividend_failure_contained_witness :
    stakeBody 1 2 0 ⟨true, true, true, true⟩ = Except.error ()
    ∧ (stake_dividend 1 2 0 ⟨true, true, true, true⟩).result = 0
    ∧ (stake_dividend 1 2 0 ⟨true, true, true, true⟩).hist = [Event.stakeFailed 1]
    ∧ (stake_dividend 1 2 0 ⟨true, true, true, true⟩).acts = []
    ∧ process_subnet 1 2 0 ⟨true, true, true, true⟩ = (0, [Event.stakeFailed 1])
    ∧ ((dividendFanOut 2 SUBNET_CONFIGS (fun _ => 0)
        (fun _ => (⟨true, true, true, true⟩ : StakeEnv))).2.2).length
      = SUBNET_CONFIGS.length :=
  stake_dividend_failure_contained 1 2 0 ⟨true, true, true, true⟩ SUBNET_CONFIGS
    (fun _ => 0) rfl

theorem digit_facts : ∀ n : ℕ, n < 10 →
    ((digitChar n).isDigit = true ∧ charVal (digitChar n) = n) := by decide

theorem fromIso_toIso (d : PyDateTime) : fromIsoChars (toIsoChars d) = some d := by
  obtain ⟨y, mo, da, ho, mi, se, us, hy1, hy2, hm1, hm2, hd1, hd2, hh, hmin, hsec, hus⟩ := d
  have d1 := digit_facts (y / 1000) (by omega)
  have d2 := digit_facts (y / 100 % 10) (by omega)
  have d3 := digit_facts (y / 10 % 10) (by omega)
  have d4 := digit_facts (y % 10) (by omega)
  have d5 := digit_facts (mo / 10) (by omega)
  have d6 := digit_facts (mo % 10) (by omega)
  have d7 := digit_facts (da / 10) (by omega)
  have d8 := digit_facts (da % 10) (by omega)
  have d9 := digit_facts (ho / 10) (by omega)
  have d10 := digit_facts (ho % 10) (by omega)
  have d11 := digit_facts (mi / 10) (by omega)
  have d12 := digit_facts (mi % 10) (by omega)
  have d13 := digit_facts (se / 10) (by omega)
  have d14 := digit_facts (se % 10) (by omega)
  have hy : 1000 * (y / 1000) + 100 * (y / 100 % 10) + 10 * (y / 10 % 10) + y % 10 = y := by
    omega
  have hmo : 10 * (mo / 10) + mo % 10 = mo := by omega
  have hda : 10 * (da / 10) + da % 10 = da := by omega
  have hho : 10 * (ho / 10) + ho % 10 = ho := by omega
  have hmi : 10 * (mi / 10) + mi % 10 = mi := by omega
  have hse : 10 * (se / 10) + se % 10 = se := by omega
  by_cases h0 : us = 0
  · subst h0
    simp only [toIsoChars, if_pos]
    simp only [fromIsoChars, fracVal]
    simp [d1.1, d2.1, d3.1, d4.1, d5.1, d6.1, d7.1, d8.1, d9.1, d10.1, d11.1, d12.1, d13.1,
      d14.1, d1.2, d2.2, d3.2, d4.2, d5.2, d6.2, d7.2, d8.2, d9.2, d10.2, d11.2, d12.2,
      d13.2, d14.2, hy, hmo, hda, hho, hmi, hse]
    exact ⟨hy1, hy2, hm1, hm2, hd1, hd2, hh, hmin, hsec⟩
  · have u1 := digit_facts (us / 100000) (by omega)
    have u2 := digit_facts (us / 10000 % 10) (by omega)
    have u3 := digit_facts (us / 1000 % 10) (by omega)
    have u4 := digit_facts (us / 100 % 10) (by omega)
    have u5 := digit_facts (us / 10 % 10) (by omega)
    have u6 := digit_facts (us % 10) (by omega)
    have hrec : 100000 * (us / 100000) + 10000 * (us / 10000 % 10) + 1000 * (us / 1000 % 10)
        + 100 * (us / 100 % 10) + 10 * (us / 10 % 10) + us % 10 = us := by omega
    simp only [toIsoChars, if_neg h0]
    simp only [fromIsoChars, fracVal]
    simp [d1.1, d2.1, d3.1, d4.1, d5.1, d6.1, d7.1, d8.1, d9.1, d10.1, d11.1, d12.1, d13.1,
      d14.1, d1.2, d2.2, d3.2, d4.2, d5.2, d6.2, d7.2, d8.2, d9.2, d10.2, d11.2, d12.2,
      d13.2, d14.2, u1.1, u2.1, u3.1, u4.1, u5.1, u6.1, u1.2, u2.2, u3.2, u4.2, u5.2, u6.2,
      hy, hmo, hda, hho, hmi, hse, hrec]
    exact ⟨hy1, hy2, hm1, hm2, hd1, hd2, hh, hmin, hsec, hus⟩

/-- C10: for every datetime, writing it to the schedule file and reading
the file back yields exactly that datetime: the schedule state
round-trips through its ISO-8601 serialization. -/
theorem write_read_schedule_roundtrip (d : PyDateTime) :
    read_schedule (write_schedule d) = Except.ok (some d) := by
  have hne : toIso d ≠ "" := by
    unfold toIso toIsoChars
    intro hcon
    exact List.cons_ne_nil _ _ (congrArg String.data hcon)
  unfold read_schedule write_schedule
  rw [if_neg hne]
  have hdata : (toIso d).data = toIsoChars d := rfl
  rw [hdata, fromIso_toIso]

end DtaoDca
